import Mathlib

/-!
Shallow embedding of the turn-orchestration core of the adk-go runtime
(`runner/runner.go` and the agent-as-tool adapter), together with proofs
about its commit policy, agent resolution and error handling.

Go pointers that may be nil become `Option`; Go `iter.Seq2[*Event, error]`
items become an inductive of (event, error) pairs as the runner consumes
them; the external session/artifact collaborators become outcome oracles
passed to the embedded `Run`.
-/

namespace ADK

/-- genai.Blob: inline binary data of a message part. -/
structure Blob where
  mimeType : String
  data : List Nat
deriving DecidableEq, Repr

/-- genai.Part: one part of a message; `text` and optional `inlineData`
(the only fields the runner reads or writes). -/
structure Part where
  text : String
  inlineData : Option Blob
deriving DecidableEq, Repr

/-- genai.Content: a role plus an ordered list of parts. -/
structure Content where
  role : String
  parts : List Part
deriving DecidableEq, Repr

/-- model.LLMResponse: the response payload of an event; `Partial` is the
streaming-fragment flag the commit policy inspects. -/
structure LLMResponse where
  content : Option Content
  Partial : Bool
deriving DecidableEq, Repr

/-- session.Event: author (an agent name or the sentinel "user"), the
invocation that produced it, and an optional response payload. -/
structure Event where
  invocationID : String
  author : String
  llmResponse : Option LLMResponse
deriving DecidableEq, Repr

/-- session.Session: identity plus the append-only ordered event log. -/
structure Session where
  appName : String
  userID : String
  id : String
  events : List Event
deriving DecidableEq, Repr

/-- The two capability facets the runner probes on an agent: LLM-capability
(`llminternal.Agent` type assertion), the bound model's name (nil model when
`none`), and the `DisallowTransferToParent` transfer flag. -/
structure AgentFacets where
  isLLM : Bool
  modelName : Option String
  disallowTransferToParent : Bool
deriving DecidableEq, Repr

/-- agent.Agent: a named node owning an ordered list of sub-agents. -/
inductive Agent where
  | node (name : String) (facets : AgentFacets) (subAgents : List Agent)
deriving Repr

def Agent.name : Agent → String
  | .node n _ _ => n

def Agent.facets : Agent → AgentFacets
  | .node _ f _ => f

def Agent.subAgents : Agent → List Agent
  | .node _ _ s => s

mutual

/-- findAgent (runner.go): pre-order search of the tree rooted at
`curAgent` for the first agent named `targetName`; `none` when absent
(the Go function returns the nil agent). -/
def findAgent : Agent → String → Option Agent
  | .node n f subs, targetName =>
    if n = targetName then some (.node n f subs)
    else findAgentList subs targetName

/-- The `for _, subAgent := range curAgent.SubAgents()` loop of findAgent:
returns the first sub-tree hit. -/
def findAgentList : List Agent → String → Option Agent
  | [], _ => none
  | a :: rest, targetName =>
    match findAgent a targetName with
    | some hit => some hit
    | none => findAgentList rest targetName

end

mutual

/-- All agents of the tree rooted at `a`, in pre-order. -/
def agentList : Agent → List Agent
  | .node n f subs => .node n f subs :: agentListL subs

def agentListL : List Agent → List Agent
  | [] => []
  | a :: rest => agentList a ++ agentListL rest

end

mutual

/-- Modelled from the spec: the Agent Tree Index of
`internal/agent/parentmap` (not under src/) — "a derived, read-only mapping
from agent name to parent agent, built once from a root Agent". Built here
as an association list of (child name, parent) pairs in pre-order; the root
has no entry, so looking it up yields `none` (Go: the zero value nil). -/
def parentMap : Agent → List (String × Agent)
  | .node n f subs =>
    (subs.map fun c => (c.name, Agent.node n f subs)) ++ parentMapL subs

def parentMapL : List Agent → List (String × Agent)
  | [] => []
  | a :: rest => parentMap a ++ parentMapL rest

end

/-- `r.parents[name]` — map lookup, nil (here `none`) when absent. -/
def lookupParent (parents : List (String × Agent)) (name : String) : Option Agent :=
  match parents.find? (fun kv => kv.1 = name) with
  | some kv => some kv.2
  | none => none

/-- Number of agents in the tree (used to bound the ancestor walk). -/
def agentCount (a : Agent) : Nat := (agentList a).length

/-- runner.Runner: app name, root agent, and the derived parent map. -/
structure Runner where
  appName : String
  rootAgent : Agent
  parents : List (String × Agent)

/-- runner.New: builds the parent map from the configured root agent.
(parentmap.New additionally rejects duplicate names; that error path is
outside the claims modelled here.) -/
def mkRunner (appName : String) (root : Agent) : Runner :=
  { appName := appName, rootAgent := root, parents := parentMap root }

/-- The `for curAgent := agentToRun; curAgent != nil; curAgent = r.parents[...]`
loop of Runner.isTransferableAcrossAgentTree (runner.go). The Go loop body
type-asserts and tests `agentToRun` — not the running `curAgent` — at every
step; the embedding keeps that faithfully. `fuel` bounds the walk; the
parent chain of a tree is finite, and the result is independent of the fuel
as soon as it is positive (`transferLoop_true_of_ok`, `isTransferable_eq`). -/
def transferLoop (parents : List (String × Agent)) (agentToRun : Agent) :
    Option Agent → Nat → Bool
  | none, _ => true
  | some _, 0 => true
  | some curAgent, fuel + 1 =>
    if !agentToRun.facets.isLLM then false
    else if agentToRun.facets.disallowTransferToParent then false
    else transferLoop parents agentToRun (lookupParent parents curAgent.name) fuel

/-- Runner.isTransferableAcrossAgentTree (runner.go): walk from `agentToRun`
up the parent chain. -/
def isTransferableAcrossAgentTree (r : Runner) (agentToRun : Agent) : Bool :=
  transferLoop r.parents agentToRun (some agentToRun) (agentCount r.rootAgent + 1)

/-- The event scan of Runner.findAgentToRun (runner.go), already oriented
newest-to-oldest: skip "user"-authored events, skip authors unknown to the
tree (logged in Go), return the first known author passing the
transferability walk. -/
def findAgentToRunLoop (r : Runner) : List Event → Agent
  | [] => r.rootAgent
  | event :: rest =>
    if event.author = "user" then findAgentToRunLoop r rest
    else
      match findAgent r.rootAgent event.author with
      | none => findAgentToRunLoop r rest
      | some subAgent =>
        if isTransferableAcrossAgentTree r subAgent then subAgent
        else findAgentToRunLoop r rest

/-- Runner.findAgentToRun (runner.go): scans `session.Events()` from index
`Len()-1` down to 0; falls back to the root agent. (The Go signature also
returns an error that is always nil.) -/
def findAgentToRun (r : Runner) (s : Session) : Agent :=
  findAgentToRunLoop r s.events.reverse

/-- Runner.setupCFC (runner.go): the resolved agent must be an LLMAgent,
carry a model, and the model name must start with "gemini-2"; returns the
error message otherwise (Go: a non-nil error). -/
def setupCFC (curAgent : Agent) : Option String :=
  if !curAgent.facets.isLLM then
    some ("agent " ++ curAgent.name ++ " is not an LLMAgent")
  else
    match curAgent.facets.modelName with
    | none => some "LLMAgent has no model"
    | some m =>
      if !(m.startsWith "gemini-2") then
        some ("CFC is not supported for model: " ++ m)
      else none

/-- One (event, err) item of the resolved agent's `iter.Seq2` output as the
runner consumes it: a successfully produced event, or an error (whose event
slot the Go loop passes through to `yield` unchanged). -/
inductive AgentItem where
  | ok (e : Event)
  | fail (e : Option Event) (msg : String)
deriving DecidableEq, Repr

/-- `event.LLMResponse != nil && event.LLMResponse.Partial` — the condition
whose negation guards the session commit in Runner.Run. -/
def isPartialEvent (e : Event) : Bool :=
  match e.llmResponse with
  | some resp => resp.Partial
  | none => false

/-- One observable action of a turn, in chronological order: an artifact
save, a session append (commit), or a `yield` of an (event, err) pair to
the caller. -/
inductive RunAction where
  | savedArtifact (fileName : String) (p : Part)
  | committed (e : Event)
  | relayed (e : Option Event) (err : Option String)
deriving DecidableEq, Repr

/-- Outcome oracle for the external collaborators of one turn: the session
lookup result, the per-event result of SessionService.AppendEvent (`none` =
success), the per-call result of Artifacts.Save, and whether an artifact
service is bound (`r.artifactService != nil`). -/
structure Services where
  getResult : Except String Session
  appendRes : Event → Option String
  saveRes : String → Part → Option String
  artifactBound : Bool

/-- The `for event, err := range agentToRun.Run(ctx)` loop of Runner.Run:
on an error item, yield it and continue; on an event, append it to the
session unless it is a partial response (terminating the turn with a single
error yield if the append fails), then yield it. The caller is modelled as
draining the sequence (every `yield` returns true). -/
def driveLoop (appendRes : Event → Option String) : List AgentItem → List RunAction
  | [] => []
  | .fail e msg :: rest => .relayed e (some msg) :: driveLoop appendRes rest
  | .ok event :: rest =>
    if !(isPartialEvent event) then
      match appendRes event with
      | some err =>
        [.relayed none (some ("failed to add event to session: " ++ err))]
      | none =>
        .committed event :: .relayed (some event) none :: driveLoop appendRes rest
    else
      .relayed (some event) none :: driveLoop appendRes rest

/-- `fmt.Sprintf("artifact_%s_%d", ctx.InvocationID(), i)`. -/
def artifactName (invocationID : String) (i : Nat) : String :=
  "artifact_" ++ invocationID ++ "_" ++ toString i

/-- The text part substituted for a saved inline-data part. -/
def placeholderPart (fileName : String) : Part :=
  { text := "Uploaded file: " ++ fileName ++ ". It has been saved to the artifacts",
    inlineData := none }

/-- The `for i, part := range msg.Parts` save loop of
Runner.appendMessageToSession, carrying the running index: parts without
inline data pass through; each inline-data part is saved and replaced by a
placeholder; a failed save stops the loop and surfaces the error, leaving
the remaining parts untouched. Returns (actions, resulting parts, error). -/
def saveLoop (saveRes : String → Part → Option String) (invocationID : String) :
    List Part → Nat → List RunAction × List Part × Option String
  | [], _ => ([], [], none)
  | p :: rest, i =>
    match p.inlineData with
    | none =>
      let out := saveLoop saveRes invocationID rest (i + 1)
      (out.1, p :: out.2.1, out.2.2)
    | some _ =>
      let fileName := artifactName invocationID i
      match saveRes fileName p with
      | some err =>
        ([], p :: rest, some ("failed to save artifact " ++ fileName ++ ": " ++ err))
      | none =>
        let out := saveLoop saveRes invocationID rest (i + 1)
        (.savedArtifact fileName p :: out.1,
         placeholderPart fileName :: out.2.1, out.2.2)

/-- The event Runner.appendMessageToSession builds for the inbound message:
`session.NewEvent(ctx.InvocationID())` with author "user" and the message
as a non-partial response payload. -/
def userEvent (invocationID : String) (content : Content) : Event :=
  { invocationID := invocationID, author := "user",
    llmResponse := some { content := some content, Partial := false } }

/-- Runner.appendMessageToSession (runner.go): nothing for a nil message;
otherwise run the save loop when an artifact service is bound and
SaveInputBlobsAsArtifacts is set, then append one "user" event carrying the
(possibly rewritten) message. Returns (actions, final value of the caller's
msg — mutated in place in Go — and the error, if any). -/
def appendMessageToSession (svc : Services) (invocationID : String)
    (msg : Option Content) (saveInputBlobsAsArtifacts : Bool) :
    List RunAction × Option Content × Option String :=
  match msg with
  | none => ([], none, none)
  | some m =>
    let saved :=
      if svc.artifactBound && saveInputBlobsAsArtifacts then
        saveLoop svc.saveRes invocationID m.parts 0
      else ([], m.parts, none)
    match saved.2.2 with
    | some err => (saved.1, some { m with parts := saved.2.1 }, some err)
    | none =>
      let m2 : Content := { m with parts := saved.2.1 }
      let ev := userEvent invocationID m2
      match svc.appendRes ev with
      | some err =>
        (saved.1, some m2,
         some ("failed to append event to sessionService: " ++ err))
      | none => (saved.1 ++ [.committed ev], some m2, none)

/-- agent.RunConfig: the streaming mode plus the two flags the runner
consults. -/
structure RunConfig where
  streamingMode : String
  supportCFC : Bool
  saveInputBlobsAsArtifacts : Bool
deriving DecidableEq, Repr

/-- The tail of Runner.Run after session resolution and CFC validation:
commit the inbound user message (ending the turn on failure with one error
yield), then drive the resolved agent's output. -/
def runAfterCFC (svc : Services) (invocationID : String) (msg : Option Content)
    (cfg : RunConfig) (agentOutput : List AgentItem) :
    List RunAction × Option Content :=
  let appended := appendMessageToSession svc invocationID msg cfg.saveInputBlobsAsArtifacts
  match appended.2.2 with
  | some err => (appended.1 ++ [.relayed none (some err)], appended.2.1)
  | none => (appended.1 ++ driveLoop svc.appendRes agentOutput, appended.2.1)

/-- Runner.Run (runner.go) as one turn against the collaborator oracle
`svc`: resolve the session (one error yield on failure), resolve the agent,
validate CFC when requested (one error yield on failure, before any
mutation), commit the inbound message, then drive the resolved agent whose
output is `behavior agentToRun`. Returns the chronological action trace and
the final value of the caller's `msg` argument. -/
def runnerRun (r : Runner) (svc : Services) (invocationID : String)
    (msg : Option Content) (cfg : RunConfig)
    (behavior : Agent → List AgentItem) : List RunAction × Option Content :=
  match svc.getResult with
  | .error err => ([.relayed none (some err)], msg)
  | .ok sess =>
    let agentToRun := findAgentToRun r sess
    if cfg.supportCFC then
      match setupCFC agentToRun with
      | some err => ([.relayed none (some ("failed to setup CFC: " ++ err))], msg)
      | none => runAfterCFC svc invocationID msg cfg (behavior agentToRun)
    else runAfterCFC svc invocationID msg cfg (behavior agentToRun)

/-- The session appends of a trace, in order. -/
def committedEvents (acts : List RunAction) : List Event :=
  acts.filterMap fun a =>
    match a with
    | .committed e => some e
    | _ => none

/-- The (event, err) pairs yielded to the caller, in order. -/
def relayedItems (acts : List RunAction) : List (Option Event × Option String) :=
  acts.filterMap fun a =>
    match a with
    | .relayed e err => some (e, err)
    | _ => none

/-- The artifact saves of a trace, in order. -/
def savedArtifacts (acts : List RunAction) : List (String × Part) :=
  acts.filterMap fun a =>
    match a with
    | .savedArtifact n p => some (n, p)
    | _ => none

/-- The events of the error-free items of an agent output sequence. -/
def okEvents (items : List AgentItem) : List Event :=
  items.filterMap fun it =>
    match it with
    | .ok e => some e
    | .fail _ _ => none

/-- The state-copy loop of agentTool.Run (the agent-as-tool adapter):
every caller state entry whose key does not start with the reserved prefix
"_adk" is copied; iteration over the Go map is modelled as a filter over an
association list. -/
def agentToolStateMap {α : Type} (callerState : List (String × α)) :
    List (String × α) :=
  callerState.filter fun kv => !(kv.1.startsWith "_adk")

/-- A freshly created sub-session of the agent-as-tool adapter. -/
structure CreatedSession (α : Type) where
  appName : String
  userID : String
  state : List (String × α)
  events : List Event

/-- Modelled from the spec: `session.InMemoryService().Create` (the session
service implementation is not under src/) — "Create(request) -> response";
per §3 a Session owns a key/value State map and an append-only Event log,
so the created session carries the request's app name, user id and initial
state, with an empty event log. -/
def sessionServiceCreate {α : Type} (appName userID : String)
    (state : List (String × α)) : CreatedSession α :=
  { appName := appName, userID := userID, state := state, events := [] }

/-- The sub-session setup of agentTool.Run (part_000): a fresh in-memory
session service is constructed for this invocation and `Create` is called
with the filtered caller state, app name `t.agent.Name()` and the caller's
user id. -/
def agentToolCreateSubSession {α : Type} (agentName userID : String)
    (callerState : List (String × α)) : CreatedSession α :=
  sessionServiceCreate agentName userID (agentToolStateMap callerState)

/-! Concrete fixtures used by witnesses and counterexamples. -/

/-- An LLM agent's facets with transfer to the parent allowed. -/
def llmOpenFacets : AgentFacets :=
  { isLLM := true, modelName := some "gemini-2.0-flash",
    disallowTransferToParent := false }

/-- An LLM agent's facets with transfer to the parent disallowed. -/
def llmNoTransferFacets : AgentFacets :=
  { isLLM := true, modelName := some "gemini-2.0-flash",
    disallowTransferToParent := true }

def leafAgent : Agent := .node "leaf" llmOpenFacets []

def midAgent : Agent := .node "mid" llmNoTransferFacets [leafAgent]

def chainRoot : Agent := .node "root" llmOpenFacets [midAgent]

def chainRunner : Runner := mkRunner "app" chainRoot

def userMsgEvent : Event :=
  { invocationID := "inv0", author := "user", llmResponse := none }

def leafEvent : Event :=
  { invocationID := "inv0", author := "leaf", llmResponse := none }

/-- A session whose newest event is authored by the leaf agent. -/
def chainSession : Session :=
  { appName := "app", userID := "u", id := "s",
    events := [userMsgEvent, leafEvent] }

/-- A session whose only event is the user's. -/
def userOnlySession : Session :=
  { appName := "app", userID := "u", id := "s", events := [userMsgEvent] }

def emptyContent : Content := { role := "user", parts := [] }

def textPart : Part := { text := "here is a file", inlineData := none }

def blobPart : Part :=
  { text := "",
    inlineData := some { mimeType := "application/octet-stream", data := [1, 2, 3] } }

def blobContent : Content := { role := "user", parts := [textPart, blobPart] }

/-- A streaming fragment: response present with Partial = true. -/
def streamEvent : Event :=
  { invocationID := "inv1", author := "leaf",
    llmResponse := some { content := some emptyContent, Partial := true } }

/-- A consolidated final event: response present with Partial = false. -/
def finalEvent : Event :=
  { invocationID := "inv1", author := "leaf",
    llmResponse := some { content := some emptyContent, Partial := false } }

def postErrorEvent : Event :=
  { invocationID := "inv1", author := "leaf", llmResponse := none }

/-- Collaborators that all succeed, session lookup resolving chainSession. -/
def okServices : Services :=
  { getResult := .ok chainSession, appendRes := fun _ => none,
    saveRes := fun _ _ => none, artifactBound := true }

/-- Collaborators whose session lookup fails. -/
def errServices : Services :=
  { getResult := .error "session not found", appendRes := fun _ => none,
    saveRes := fun _ _ => none, artifactBound := true }

def plainCfg : RunConfig :=
  { streamingMode := "NONE", supportCFC := false,
    saveInputBlobsAsArtifacts := false }

def blobCfg : RunConfig :=
  { streamingMode := "NONE", supportCFC := false,
    saveInputBlobsAsArtifacts := true }

def cfcCfg : RunConfig :=
  { streamingMode := "NONE", supportCFC := true,
    saveInputBlobsAsArtifacts := false }

/-- A non-LLM (custom) root agent, for the CFC validation failure path. -/
def customAgent : Agent :=
  .node "custom" { isLLM := false, modelName := none,
                   disallowTransferToParent := false } []

def customRunner : Runner := mkRunner "app" customAgent

def emptySession : Session :=
  { appName := "app", userID := "u", id := "s", events := [] }

/-- Collaborators that all succeed, session lookup resolving emptySession. -/
def okEmptyServices : Services :=
  { getResult := .ok emptySession, appendRes := fun _ => none,
    saveRes := fun _ _ => none, artifactBound := true }

/-! Lemmas about the agent tree and the transferability walk. -/

mutual

theorem findAgent_mem (a : Agent) (n : String) (b : Agent)
    (h : findAgent a n = some b) : b ∈ agentList a := by
  match a with
  | .node nm f subs =>
    rw [findAgent] at h
    rw [agentList]
    by_cases hn : nm = n
    · subst hn
      rw [if_pos rfl] at h
      cases h
      exact List.mem_cons_self _ _
    · rw [if_neg hn] at h
      exact List.mem_cons_of_mem _ (findAgentList_mem subs n b h)

theorem findAgentList_mem (l : List Agent) (n : String) (b : Agent)
    (h : findAgentList l n = some b) : b ∈ agentListL l := by
  match l with
  | [] => simp [findAgentList] at h
  | a :: rest =>
    rw [findAgentList] at h
    rw [agentListL]
    cases hf : findAgent a n with
    | some hit =>
      rw [hf] at h
      cases h
      exact List.mem_append_left _ (findAgent_mem a n b hf)
    | none =>
      rw [hf] at h
      exact List.mem_append_right _ (findAgentList_mem rest n b h)

end

theorem self_mem_agentList (a : Agent) : a ∈ agentList a := by
  match a with
  | .node n f subs =>
    rw [agentList]
    exact List.mem_cons_self _ _

/-- When the probed agent itself passes the per-step test, the walk returns
true whatever the chain and the fuel: the Go body never consults the
running ancestor. -/
theorem transferLoop_true_of_ok (parents : List (String × Agent)) (a : Agent)
    (hllm : a.facets.isLLM = true) (hflag : a.facets.disallowTransferToParent = false) :
    ∀ (fuel : Nat) (cur : Option Agent), transferLoop parents a cur fuel = true := by
  intro fuel
  induction fuel with
  | zero => intro cur; cases cur <;> rfl
  | succ n ih =>
    intro cur
    cases cur with
    | none => rfl
    | some c =>
      rw [transferLoop, hllm, hflag]
      simpa using ih _

/-- The walk's value only depends on the probed agent's own facets. -/
theorem isTransferable_eq (r : Runner) (a : Agent) :
    isTransferableAcrossAgentTree r a =
      (a.facets.isLLM && !a.facets.disallowTransferToParent) := by
  unfold isTransferableAcrossAgentTree
  cases hllm : a.facets.isLLM with
  | false =>
    rw [transferLoop, hllm]
    rfl
  | true =>
    cases hflag : a.facets.disallowTransferToParent with
    | false =>
      rw [transferLoop_true_of_ok r.parents a hllm hflag]
      simp [hllm, hflag]
    | true =>
      rw [transferLoop, hllm, hflag]
      rfl

theorem findAgentToRunLoop_mem (r : Runner) (l : List Event) :
    findAgentToRunLoop r l ∈ agentList r.rootAgent := by
  induction l with
  | nil =>
    rw [findAgentToRunLoop]
    exact self_mem_agentList _
  | cons e rest ih =>
    rw [findAgentToRunLoop]
    by_cases hu : e.author = "user"
    · rw [if_pos hu]
      exact ih
    · rw [if_neg hu]
      cases hf : findAgent r.rootAgent e.author with
      | none => exact ih
      | some sub =>
        by_cases ht : isTransferableAcrossAgentTree r sub
        · simp only [ht, if_pos]
          exact findAgent_mem _ _ _ hf
        · simp only [ht, if_neg, Bool.false_eq_true]
          exact ih

theorem findAgentToRunLoop_root (r : Runner) (l : List Event)
    (h : ∀ e ∈ l, e.author = "user" ∨ findAgent r.rootAgent e.author = none) :
    findAgentToRunLoop r l = r.rootAgent := by
  induction l with
  | nil => rfl
  | cons e rest ih =>
    have hrest : ∀ x ∈ rest, x.author = "user" ∨ findAgent r.rootAgent x.author = none :=
      fun x hx => h x (List.mem_cons_of_mem _ hx)
    rw [findAgentToRunLoop]
    rcases h e (List.mem_cons_self _ _) with hu | hf
    · rw [if_pos hu]
      exact ih hrest
    · by_cases hu : e.author = "user"
      · rw [if_pos hu]
        exact ih hrest
      · rw [if_neg hu, hf]
        exact ih hrest

/-- C5: findAgentToRun always returns an agent of the tree rooted at the
runner's root agent, and returns the root whenever no session event is
authored by an agent known to the tree (events authored by "user" and
events with unknown author names are skipped by the scan). -/
theorem claim_C5_find_agent_in_tree (r : Runner) (s : Session) :
    findAgentToRun r s ∈ agentList r.rootAgent ∧
    ((∀ e ∈ s.events, e.author = "user" ∨ findAgent r.rootAgent e.author = none) →
      findAgentToRun r s = r.rootAgent) := by
  constructor
  · exact findAgentToRunLoop_mem r _
  · intro h
    exact findAgentToRunLoop_root r _ fun e he => h e (List.mem_reverse.mp he)

/-- C5 witness: on a session holding only the user's message, the resolved
agent is the root, which is in the tree. -/
theorem claim_C5_witness :
    findAgentToRun chainRunner userOnlySession = chainRunner.rootAgent ∧
    findAgentToRun chainRunner userOnlySession ∈ agentList chainRunner.rootAgent := by
  constructor
  · refine (claim_C5_find_agent_in_tree chainRunner userOnlySession).2 ?_
    intro e he
    have : e = userMsgEvent := by simpa [userOnlySession] using he
    subst this
    left
    rfl
  · exact (claim_C5_find_agent_in_tree chainRunner userOnlySession).1

/-- C2, evaluated at the failing input: in the chain root → mid → leaf
where only `mid` disallows transfer to its parent, the code still resumes
`leaf` from the history — the walk re-tests the leaf's own facets at every
step instead of the current ancestor's, so the blocking ancestor is never
consulted. -/
theorem claim_C2_walk_ignores_ancestor :
    findAgentToRun chainRunner chainSession = leafAgent ∧
    lookupParent chainRunner.parents leafAgent.name = some midAgent ∧
    midAgent.facets.disallowTransferToParent = true ∧
    isTransferableAcrossAgentTree chainRunner leafAgent = true := by
  refine ⟨?_, ?_, rfl, ?_⟩
  · rfl
  · rfl
  · rfl

/-! Lemmas about the drive loop and the commit policy. -/

theorem committedEvents_append (l1 l2 : List RunAction) :
    committedEvents (l1 ++ l2) = committedEvents l1 ++ committedEvents l2 := by
  simp [committedEvents, List.filterMap_append]

theorem relayedItems_append (l1 l2 : List RunAction) :
    relayedItems (l1 ++ l2) = relayedItems l1 ++ relayedItems l2 := by
  simp [relayedItems, List.filterMap_append]

theorem savedArtifacts_append (l1 l2 : List RunAction) :
    savedArtifacts (l1 ++ l2) = savedArtifacts l1 ++ savedArtifacts l2 := by
  simp [savedArtifacts, List.filterMap_append]

/-- C1: with the session service accepting every append, the drive loop
commits exactly those error-free events whose response is absent or whose
Partial flag is false, in production order, and yields every item to the
caller unchanged — so an event with Partial = true is relayed but never
appended, leaving the session event log untouched. -/
theorem claim_C1_commit_policy (items : List AgentItem) :
    committedEvents (driveLoop (fun _ => none) items) =
      (okEvents items).filter (fun e => !(isPartialEvent e)) ∧
    relayedItems (driveLoop (fun _ => none) items) =
      items.map (fun it =>
        match it with
        | .ok e => (some e, none)
        | .fail e m => (e, some m)) := by
  induction items with
  | nil => exact ⟨rfl, rfl⟩
  | cons it rest ih =>
    cases it with
    | fail e m =>
      rw [driveLoop]
      refine ⟨?_, ?_⟩
      · simpa [committedEvents, okEvents] using ih.1
      · simpa [relayedItems, okEvents] using ih.2
    | ok e =>
      rw [driveLoop]
      by_cases hp : isPartialEvent e
      · refine ⟨?_, ?_⟩
        · simpa [hp, committedEvents, okEvents] using ih.1
        · simpa [hp, relayedItems, okEvents] using ih.2
      · refine ⟨?_, ?_⟩
        · simpa [hp, committedEvents, okEvents] using ih.1
        · simpa [hp, relayedItems, okEvents] using ih.2

/-- C3 counterexample: after an error item the drive loop continues — the
next event of the same turn is still pulled, committed to the session, and
relayed, so the sequence is not terminated by the error. -/
theorem claim_C3_counterexample :
    driveLoop (fun _ => none)
        [.fail none "model call interrupted", .ok postErrorEvent] =
      [.relayed none (some "model call interrupted"),
       .committed postErrorEvent,
       .relayed (some postErrorEvent) none] := by
  rfl

/-- C3 amended: an (event, err) item with err != nil is relayed to the
caller as-is and nothing is committed for it, after which the loop
continues with the remaining items of the sequence (it stops early only
when the caller stops consuming). -/
theorem claim_C3_error_relay_then_continue (appendRes : Event → Option String)
    (e : Option Event) (msg : String) (rest : List AgentItem) :
    driveLoop appendRes (.fail e msg :: rest) =
      .relayed e (some msg) :: driveLoop appendRes rest := by
  rfl

/-- C4: for a non-partial event, the session append is performed before
the event is relayed — on success the commit action immediately precedes
the relay; on append failure the turn terminates with a single error yield
and the failed event itself is never relayed. -/
theorem claim_C4_append_before_relay (appendRes : Event → Option String)
    (event : Event) (rest : List AgentItem)
    (hnp : isPartialEvent event = false) :
    (∀ err, appendRes event = some err →
      driveLoop appendRes (.ok event :: rest) =
        [.relayed none (some ("failed to add event to session: " ++ err))]) ∧
    (appendRes event = none →
      driveLoop appendRes (.ok event :: rest) =
        .committed event :: .relayed (some event) none ::
          driveLoop appendRes rest) := by
  constructor
  · intro err herr
    simp [driveLoop, hnp, herr]
  · intro hok
    simp [driveLoop, hnp, hok]

/-- C4 witness: a failing append yields exactly the wrapped error; a
successful append commits, then relays. -/
theorem claim_C4_witness :
    driveLoop (fun _ => some "disk full") [.ok postErrorEvent] =
      [.relayed none (some "failed to add event to session: disk full")] ∧
    driveLoop (fun _ => none) [.ok postErrorEvent] =
      [.committed postErrorEvent, .relayed (some postErrorEvent) none] := by
  constructor
  · exact (claim_C4_append_before_relay (fun _ => some "disk full")
      postErrorEvent [] rfl).1 "disk full" rfl
  · exact (claim_C4_append_before_relay (fun _ => none)
      postErrorEvent [] rfl).2 rfl

/-! Lemmas about the inbound-message commit and the blob save loop. -/

/-- With every save succeeding, the save loop walks the whole part list:
it saves each inline-data part under the running index and substitutes the
placeholder, leaving every other part in place. -/
theorem saveLoop_noFail (saveRes : String → Part → Option String)
    (invID : String) (hsave : ∀ n p, saveRes n p = none) :
    ∀ (parts : List Part) (i : Nat),
      saveLoop saveRes invID parts i =
        ((List.enumFrom i parts).filterMap fun ip =>
           if ip.2.inlineData.isSome then
             some (.savedArtifact (artifactName invID ip.1) ip.2)
           else none,
         (List.enumFrom i parts).map fun ip =>
           if ip.2.inlineData.isSome then placeholderPart (artifactName invID ip.1)
           else ip.2,
         none) := by
  intro parts
  induction parts with
  | nil => intro i; rfl
  | cons p rest ih =>
    intro i
    cases hin : p.inlineData with
    | none => simp [saveLoop, hin, ih (i + 1), List.enumFrom]
    | some b => simp [saveLoop, hin, hsave, ih (i + 1), List.enumFrom]

theorem committedEvents_saveActions (invID : String) (l : List (Nat × Part)) :
    committedEvents (l.filterMap fun ip =>
      if ip.2.inlineData.isSome then
        some (.savedArtifact (artifactName invID ip.1) ip.2)
      else none) = [] := by
  induction l with
  | nil => rfl
  | cons ip rest ih =>
    by_cases h : ip.2.inlineData.isSome
    · simpa [h, committedEvents] using ih
    · simpa [h, committedEvents] using ih

theorem savedArtifacts_saveActions (invID : String) (l : List (Nat × Part)) :
    savedArtifacts (l.filterMap fun ip =>
      if ip.2.inlineData.isSome then
        some (.savedArtifact (artifactName invID ip.1) ip.2)
      else none) =
    l.filterMap fun ip =>
      if ip.2.inlineData.isSome then some (artifactName invID ip.1, ip.2)
      else none := by
  induction l with
  | nil => rfl
  | cons ip rest ih =>
    by_cases h : ip.2.inlineData.isSome
    · simpa [h, savedArtifacts] using ih
    · simpa [h, savedArtifacts] using ih

/-- With blob saving off (service unbound or flag clear) and the append
succeeding, committing the inbound message appends exactly the one user
event carrying the message unchanged. -/
theorem appendMessage_plain (svc : Services) (invID : String) (m : Content)
    (saveFlag : Bool) (hflag : (svc.artifactBound && saveFlag) = false)
    (happ : ∀ e, svc.appendRes e = none) :
    appendMessageToSession svc invID (some m) saveFlag =
      ([.committed (userEvent invID m)], some m, none) := by
  simp [appendMessageToSession, hflag, happ]

/-- With blob saving on, the service bound, and every collaborator call
succeeding, committing the inbound message saves each inline part, then
appends one user event carrying the rewritten message. -/
theorem appendMessage_blobs (svc : Services) (invID : String) (m : Content)
    (hbound : svc.artifactBound = true)
    (happ : ∀ e, svc.appendRes e = none)
    (hsave : ∀ n p, svc.saveRes n p = none) :
    appendMessageToSession svc invID (some m) true =
      (((List.enumFrom 0 m.parts).filterMap fun ip =>
          if ip.2.inlineData.isSome then
            some (.savedArtifact (artifactName invID ip.1) ip.2)
          else none) ++
        [.committed (userEvent invID
          { m with parts := (List.enumFrom 0 m.parts).map fun ip =>
              if ip.2.inlineData.isSome then placeholderPart (artifactName invID ip.1)
              else ip.2 })],
       some { m with parts := (List.enumFrom 0 m.parts).map fun ip =>
          if ip.2.inlineData.isSome then placeholderPart (artifactName invID ip.1)
          else ip.2 },
       none) := by
  simp [appendMessageToSession, hbound, saveLoop_noFail svc.saveRes invID hsave, happ]

/-- The final value of the caller's msg does not depend on how the turn
after the message commit goes. -/
theorem runAfterCFC_snd (svc : Services) (invID : String) (msg : Option Content)
    (cfg : RunConfig) (out : List AgentItem) :
    (runAfterCFC svc invID msg cfg out).2 =
      (appendMessageToSession svc invID msg cfg.saveInputBlobsAsArtifacts).2.1 := by
  unfold runAfterCFC
  cases h : (appendMessageToSession svc invID msg cfg.saveInputBlobsAsArtifacts).2.2 <;>
    simp [h]

/-- C6 counterexample: a present inbound message with no parts is not
skipped — the turn still appends one "user" event carrying it, so the
claim's "empty" case fails on the code (only a nil message is skipped). -/
theorem claim_C6_counterexample :
    emptyContent.parts = [] ∧
    committedEvents (runnerRun chainRunner okServices "inv1" (some emptyContent)
        plainCfg (fun _ => [])).1 = [userEvent "inv1" emptyContent] ∧
    (userEvent "inv1" emptyContent).author = "user" := by
  exact ⟨rfl, rfl, rfl⟩

/-- C6 amended: with the session resolved, CFC not requested and the
collaborators succeeding, Runner.Run relays the message-commit actions
before any drive action; a present inbound message (even one with no
parts) is committed as exactly one "user" event carrying the (possibly
rewritten) content, and no user event is appended only when the message is
absent (nil). -/
theorem claim_C6_one_user_event (r : Runner) (svc : Services) (invID : String)
    (msg : Option Content) (cfg : RunConfig) (sess : Session)
    (behavior : Agent → List AgentItem)
    (hget : svc.getResult = .ok sess)
    (hcfc : cfg.supportCFC = false)
    (happ : ∀ e, svc.appendRes e = none)
    (hsave : ∀ n p, svc.saveRes n p = none) :
    (runnerRun r svc invID msg cfg behavior).1 =
      (appendMessageToSession svc invID msg cfg.saveInputBlobsAsArtifacts).1 ++
        driveLoop svc.appendRes (behavior (findAgentToRun r sess)) ∧
    (msg = none →
      appendMessageToSession svc invID msg cfg.saveInputBlobsAsArtifacts =
        ([], none, none)) ∧
    (∀ m, msg = some m →
      ∃ m2, (appendMessageToSession svc invID msg cfg.saveInputBlobsAsArtifacts).2.1 =
          some m2 ∧
        committedEvents
            (appendMessageToSession svc invID msg cfg.saveInputBlobsAsArtifacts).1 =
          [userEvent invID m2]) := by
  have hnoerr : (appendMessageToSession svc invID msg cfg.saveInputBlobsAsArtifacts).2.2 =
      none := by
    cases msg with
    | none => rfl
    | some m =>
      cases hb : svc.artifactBound && cfg.saveInputBlobsAsArtifacts with
      | false => rw [appendMessage_plain svc invID m _ hb happ]
      | true =>
        have hbound : svc.artifactBound = true := by
          cases h : svc.artifactBound
          · rw [h] at hb; simp at hb
          · rfl
        have hflag : cfg.saveInputBlobsAsArtifacts = true := by
          cases h : cfg.saveInputBlobsAsArtifacts
          · rw [h] at hb; simp at hb
          · rfl
        rw [hflag, appendMessage_blobs svc invID m hbound happ hsave]
  refine ⟨?_, ?_, ?_⟩
  · simp only [runnerRun, hget, hcfc, Bool.false_eq_true, if_false, runAfterCFC, hnoerr]
  · intro hm; subst hm; rfl
  · intro m hm
    subst hm
    cases hb : svc.artifactBound && cfg.saveInputBlobsAsArtifacts with
    | false =>
      refine ⟨m, ?_, ?_⟩
      · rw [appendMessage_plain svc invID m _ hb happ]
      · rw [appendMessage_plain svc invID m _ hb happ]
        rfl
    | true =>
      have hbound : svc.artifactBound = true := by
        cases h : svc.artifactBound
        · rw [h] at hb; simp at hb
        · rfl
      have hflag : cfg.saveInputBlobsAsArtifacts = true := by
        cases h : cfg.saveInputBlobsAsArtifacts
        · rw [h] at hb; simp at hb
        · rfl
      refine ⟨{ m with parts := (List.enumFrom 0 m.parts).map fun ip =>
          if ip.2.inlineData.isSome then placeholderPart (artifactName invID ip.1)
          else ip.2 }, ?_, ?_⟩
      · rw [hflag, appendMessage_blobs svc invID m hbound happ hsave]
      · rw [hflag, appendMessage_blobs svc invID m hbound happ hsave]
        rw [committedEvents_append, committedEvents_saveActions]
        rfl

/-- C6 witness: at a concrete empty-parts message the commit yields
exactly one user event carrying it. -/
theorem claim_C6_witness :
    ∃ m2, (appendMessageToSession okServices "inv1" (some emptyContent)
        plainCfg.saveInputBlobsAsArtifacts).2.1 = some m2 ∧
      committedEvents (appendMessageToSession okServices "inv1" (some emptyContent)
        plainCfg.saveInputBlobsAsArtifacts).1 = [userEvent "inv1" m2] := by
  exact (claim_C6_one_user_event chainRunner okServices "inv1" (some emptyContent)
    plainCfg chainSession (fun _ => []) rfl rfl (fun _ => rfl) (fun _ _ => rfl)).2.2
    emptyContent rfl

/-- C7: with blob saving enabled, the artifact service bound and every
save succeeding, the turn saves exactly the inline-data parts, each under
the name "artifact_(invocation id)_(part index)", and the committed user
event carries, at each inline-data index, the placeholder text referencing
that name, with every other part unchanged and saved nowhere. -/
theorem claim_C7_blob_artifacts (svc : Services) (invID : String) (m : Content)
    (hbound : svc.artifactBound = true)
    (happ : ∀ e, svc.appendRes e = none)
    (hsave : ∀ n p, svc.saveRes n p = none) :
    savedArtifacts (appendMessageToSession svc invID (some m) true).1 =
      ((List.enumFrom 0 m.parts).filterMap fun ip =>
        if ip.2.inlineData.isSome then some (artifactName invID ip.1, ip.2)
        else none) ∧
    committedEvents (appendMessageToSession svc invID (some m) true).1 =
      [userEvent invID
        { m with parts := (List.enumFrom 0 m.parts).map fun ip =>
            if ip.2.inlineData.isSome then placeholderPart (artifactName invID ip.1)
            else ip.2 }] := by
  rw [appendMessage_blobs svc invID m hbound happ hsave]
  constructor
  · rw [savedArtifacts_append, savedArtifacts_saveActions]
    simp [savedArtifacts]
  · rw [committedEvents_append, committedEvents_saveActions]
    rfl

/-- C7 witness: a two-part message (text, blob) saves exactly the blob
part under "artifact_inv1_1" and commits the user event with the blob part
replaced by the placeholder and the text part unchanged. -/
theorem claim_C7_witness :
    savedArtifacts (appendMessageToSession okServices "inv1" (some blobContent)
        true).1 = [("artifact_inv1_1", blobPart)] ∧
    committedEvents (appendMessageToSession okServices "inv1" (some blobContent)
        true).1 =
      [userEvent "inv1"
        { role := "user", parts := [textPart, placeholderPart "artifact_inv1_1"] }] := by
  have h := claim_C7_blob_artifacts okServices "inv1" blobContent rfl
    (fun _ => rfl) (fun _ _ => rfl)
  refine ⟨?_, ?_⟩
  · rw [h.1]
    rfl
  · rw [h.2]
    rfl

/-- The CFC validation fails exactly when the agent is not LLM-capable,
has no model, or has a model outside the eligible family. -/
theorem setupCFC_some (a : Agent)
    (h : a.facets.isLLM = false ∨ a.facets.modelName = none ∨
         ∃ mn, a.facets.modelName = some mn ∧ mn.startsWith "gemini-2" = false) :
    ∃ e, setupCFC a = some e := by
  rcases h with hllm | hmod | ⟨mn, hmn, hpre⟩
  · exact ⟨"agent " ++ a.name ++ " is not an LLMAgent", by simp [setupCFC, hllm]⟩
  · cases hllm : a.facets.isLLM
    · exact ⟨"agent " ++ a.name ++ " is not an LLMAgent", by simp [setupCFC, hllm]⟩
    · exact ⟨"LLMAgent has no model", by simp [setupCFC, hllm, hmod]⟩
  · cases hllm : a.facets.isLLM
    · exact ⟨"agent " ++ a.name ++ " is not an LLMAgent", by simp [setupCFC, hllm]⟩
    · exact ⟨"CFC is not supported for model: " ++ mn, by simp [setupCFC, hllm, hmn, hpre]⟩

/-- C8: a failed session lookup ends the turn with exactly that one error
yielded and nothing else; with the session resolved and CFC requested, an
agent that is not LLM-capable, has no model, or has a model outside the
eligible "gemini-2" family ends the turn with exactly one wrapped CFC
error — in both cases before any session mutation (the trace holds no
commit and no artifact save). -/
theorem claim_C8_fail_fast (r : Runner) (svc : Services) (invID : String)
    (msg : Option Content) (cfg : RunConfig) (behavior : Agent → List AgentItem) :
    (∀ errS, svc.getResult = .error errS →
      runnerRun r svc invID msg cfg behavior = ([.relayed none (some errS)], msg)) ∧
    (∀ sess, svc.getResult = .ok sess → cfg.supportCFC = true →
      ((findAgentToRun r sess).facets.isLLM = false ∨
       (findAgentToRun r sess).facets.modelName = none ∨
       ∃ mn, (findAgentToRun r sess).facets.modelName = some mn ∧
             mn.startsWith "gemini-2" = false) →
      ∃ eMsg, runnerRun r svc invID msg cfg behavior =
        ([.relayed none (some ("failed to setup CFC: " ++ eMsg))], msg) ∧
        committedEvents (runnerRun r svc invID msg cfg behavior).1 = [] ∧
        savedArtifacts (runnerRun r svc invID msg cfg behavior).1 = []) := by
  constructor
  · intro errS h
    simp [runnerRun, h]
  · intro sess hget hcfc hbad
    rcases setupCFC_some _ hbad with ⟨e, he⟩
    refine ⟨e, ?_, ?_, ?_⟩ <;> simp [runnerRun, hget, hcfc, he, committedEvents,
      savedArtifacts]

/-- C8 witness: a concrete failed lookup relays only its error; a concrete
non-LLM agent with CFC requested relays only the wrapped CFC error. -/
theorem claim_C8_witness :
    runnerRun chainRunner errServices "inv1" (some emptyContent) plainCfg
        (fun _ => []) = ([.relayed none (some "session not found")], some emptyContent) ∧
    ∃ eMsg, runnerRun customRunner okEmptyServices "inv1" (some emptyContent) cfcCfg
        (fun _ => []) =
      ([.relayed none (some ("failed to setup CFC: " ++ eMsg))], some emptyContent) := by
  constructor
  · exact (claim_C8_fail_fast chainRunner errServices "inv1" (some emptyContent)
      plainCfg (fun _ => [])).1 "session not found" rfl
  · rcases (claim_C8_fail_fast customRunner okEmptyServices "inv1" (some emptyContent)
      cfcCfg (fun _ => [])).2 emptySession rfl rfl (Or.inl rfl) with ⟨e, he, -, -⟩
    exact ⟨e, he⟩

/-- C9: the sub-session created by the agent-as-tool adapter starts from
exactly those caller state entries whose keys do not carry the reserved
"_adk" prefix — no reserved key is ever copied — and is scoped to the
wrapped agent's name with an empty event log. -/
theorem claim_C9_state_filter {α : Type} (agentName userID : String)
    (callerState : List (String × α)) (k : String) (v : α) :
    ((k, v) ∈ (agentToolCreateSubSession agentName userID callerState).state ↔
      (k, v) ∈ callerState ∧ k.startsWith "_adk" = false) ∧
    (agentToolCreateSubSession agentName userID callerState).appName = agentName ∧
    (agentToolCreateSubSession agentName userID callerState).events = [] := by
  refine ⟨?_, rfl, rfl⟩
  simp [agentToolCreateSubSession, sessionServiceCreate, agentToolStateMap,
    List.mem_filter]

/-- C10: when blob saving is enabled, the artifact service is bound and
the saves succeed, the caller's msg argument itself ends the turn rewritten
in place: every inline-data part replaced by the placeholder text part, all
other parts and the role unchanged — whatever the agent output and append
outcomes. -/
theorem claim_C10_msg_mutation (r : Runner) (svc : Services) (invID : String)
    (m : Content) (cfg : RunConfig) (behavior : Agent → List AgentItem)
    (sess : Session)
    (hget : svc.getResult = .ok sess)
    (hcfc : cfg.supportCFC = false)
    (hflag : cfg.saveInputBlobsAsArtifacts = true)
    (hbound : svc.artifactBound = true)
    (hsave : ∀ n p, svc.saveRes n p = none) :
    (runnerRun r svc invID (some m) cfg behavior).2 =
      some { m with parts := (List.enumFrom 0 m.parts).map fun ip =>
        if ip.2.inlineData.isSome then placeholderPart (artifactName invID ip.1)
        else ip.2 } := by
  have hrun : (runnerRun r svc invID (some m) cfg behavior).2 =
      (runAfterCFC svc invID (some m) cfg (behavior (findAgentToRun r sess))).2 := by
    simp [runnerRun, hget, hcfc]
  rw [hrun, runAfterCFC_snd, hflag]
  simp only [appendMessageToSession, hbound, Bool.and_self, if_true,
    saveLoop_noFail svc.saveRes invID hsave]
  cases happEv : svc.appendRes (userEvent invID
      { m with parts := (List.enumFrom 0 m.parts).map fun ip =>
        if ip.2.inlineData.isSome then placeholderPart (artifactName invID ip.1)
        else ip.2 }) <;> simp [happEv]

/-- C10 witness: after a concrete turn with a text part and a blob part,
the caller's msg holds the text part and the placeholder. -/
theorem claim_C10_witness :
    (runnerRun chainRunner okServices "inv1" (some blobContent) blobCfg
        (fun _ => [.ok streamEvent])).2 =
      some { role := "user", parts := [textPart, placeholderPart "artifact_inv1_1"] } := by
  rw [claim_C10_msg_mutation chainRunner okServices "inv1" blobContent blobCfg
    (fun _ => [.ok streamEvent]) chainSession rfl rfl rfl rfl (fun _ _ => rfl)]
  rfl

end ADK
